import Mathlib

/-!
Shallow embedding of the task-management application:
backend `src/backend/server.js` (Express + SQLite handlers) and the
client-side filtering logic of `src/src/App.tsx`.

Conventions of the embedding:
* JSON body / query-string fields are `Option String`; `none` models an
  absent (JS `undefined`) field, `some ""` a supplied empty string.
  JS string truthiness (`if (status)`) is `s ≠ ""` on a present field.
* SQLite `CURRENT_TIMESTAMP` is modelled by an explicit `now : Nat`
  argument; comparisons on `created_at` are `Nat` comparisons.
* SQLite `LIKE` is modelled by `likeMatch` (`%` = any sequence, `_` = any
  single character, case-insensitive via ASCII `Char.toLower` — SQLite's
  LIKE is case-insensitive for ASCII only).  JavaScript
  `String.prototype.toLowerCase` + `includes` is modelled by `jsToLower`
  (the Unicode simple lower-case mapping, rendered exactly on the Basic
  Latin and Latin-1 Supplement blocks) with `lowerStr` / `listIncl`; the
  two case mappings genuinely differ outside ASCII, as the two programs
  do.
* The database is a list of rows in rowid (insertion) order together with
  the next AUTOINCREMENT id; `ORDER BY created_at DESC` is a stable
  descending insertion sort; the order among rows with equal
  `created_at` values is a fixed but arbitrary choice, since SQLite
  leaves the ORDER BY tie order engine-defined, and no theorem below
  depends on it.
-/

namespace TaskApp

/-- A row of the `tasks` table (schema in server.js lines 18-27). -/
structure Task where
  id : Nat
  title : String
  description : String
  status : String
  created_at : Nat
  updated_at : Nat
deriving Repr, DecidableEq

/-- The `tasks` table: rows in rowid order plus the next AUTOINCREMENT id. -/
structure Db where
  rows : List Task
  nextId : Nat
deriving Repr, DecidableEq

/-- The three enumeration values from the schema CHECK constraint and from
`validateTask` (server.js line 54): `['pending', 'in progress', 'completed']`. -/
def validStatuses : List String := ["pending", "in progress", "completed"]

/-- Well-formedness maintained by AUTOINCREMENT: every stored id is below
the next id to be assigned. -/
def WfDb (db : Db) : Prop := ∀ t ∈ db.rows, t.id < db.nextId

instance : DecidablePred WfDb := fun db => by
  unfold WfDb; infer_instance

/-! ### Character / string matching primitives -/

/-- ASCII-case-insensitive character equality (the comparison SQLite's
default LIKE uses). -/
def charEqCI (a b : Char) : Bool := decide (a.toLower = b.toLower)

/-- `matchHere s h`: `s` matches the beginning of `h` case-insensitively. -/
def matchHere : List Char → List Char → Bool
  | [], _ => true
  | _ :: _, [] => false
  | c :: s, d :: h => charEqCI c d && matchHere s h

/-- `anySuffix f h`: `f` holds of some suffix of `h` (including `h`
itself and `[]`). -/
def anySuffix (f : List Char → Bool) : List Char → Bool
  | [] => f []
  | c :: h => f (c :: h) || anySuffix f h

/-- `containsCI s h`: `s` occurs as a contiguous substring of `h`,
case-insensitively.  This is the "case-insensitive substring match"
notion used by the specification. -/
def containsCI (s h : List Char) : Bool := anySuffix (matchHere s) h

/-- `headMatch s h`: `s` matches the beginning of `h` exactly. -/
def headMatch : List Char → List Char → Bool
  | [], _ => true
  | _ :: _, [] => false
  | c :: s, d :: h => decide (c = d) && headMatch s h

/-- `listIncl s h`: `s` occurs as a contiguous substring of `h` exactly
(JavaScript `h.includes(s)`). -/
def listIncl (s h : List Char) : Bool := anySuffix (headMatch s) h

/-- SQLite `LIKE` pattern matching: `%` matches any sequence, `_` any
single character, other characters match case-insensitively.  A pattern
starting with `%` matches a string iff the rest of the pattern matches
some suffix of it. -/
def likeMatch : List Char → List Char → Bool
  | [], h => h.isEmpty
  | p :: ps, h =>
    if p = '%' then anySuffix (fun h2 => likeMatch ps h2) h
    else
      match h with
      | [] => false
      | c :: h2 => (decide (p = '_') || charEqCI p c) && likeMatch ps h2

/-- A search string is wildcard-free when it contains neither LIKE
metacharacter. -/
def noWild (l : List Char) : Bool := l.all fun c => decide (c ≠ '%' ∧ c ≠ '_')

/-- JavaScript `String.prototype.toLowerCase` on one character: the
Unicode simple lower-case mapping.  It is rendered exactly on the Basic
Latin block (`A`-`Z`, code points 65-90) and on the Latin-1 Supplement
block (`À`-`Þ`, code points 192-222, excluding the uncased `×` at 215),
which covers every string appearing in this development; characters of
higher blocks are left unchanged.  Note this is NOT the ASCII-only
`Char.toLower` that SQLite's LIKE uses: `jsToLower 'Á' = 'á'` while
`Char.toLower 'Á' = 'Á'`. -/
def jsToLower (c : Char) : Char :=
  let n := c.toNat
  if n ≥ 65 ∧ n ≤ 90 then Char.ofNat (n + 32)
  else if n ≥ 192 ∧ n ≤ 222 ∧ n ≠ 215 then Char.ofNat (n + 32)
  else c

/-- The character is in the ASCII range, where the JavaScript and the
SQLite case mappings agree. -/
def asciiChar (c : Char) : Bool := decide (c.toNat ≤ 127)

/-- Every character of the string is ASCII. -/
def asciiStr (s : String) : Bool := s.data.all asciiChar

/-- JavaScript `toLowerCase` on a whole string. -/
def lowerStr (s : String) : List Char := s.data.map jsToLower

/-- The server's search condition `title LIKE '%s%' OR description LIKE
'%s%'` for one field: match the field against the pattern `%s%`
(server.js lines 78-81). -/
def likePat (s : String) (field : String) : Bool :=
  likeMatch ('%' :: (s.data ++ ['%'])) field.data

/-- JavaScript `String.prototype.trim`: strip leading and trailing
whitespace.  (Implemented over the character list so that it is
kernel-computable.) -/
def jsTrim (s : String) : String :=
  String.mk (((s.data.dropWhile Char.isWhitespace).reverse.dropWhile
    Char.isWhitespace).reverse)

/-! ### Backend handlers (server.js) -/

/-- `validateTask` middleware (server.js lines 44-62).  Returns
`some message` when the request is rejected with HTTP 400, `none` when
`next()` is reached.  `!title` (JS falsiness) is `none` or the empty
string, which the `trim` check subsumes; `status && ...` skips the enum
check for an absent or empty-string status. -/
def validateTask (titleOpt statusOpt : Option String) : Option String :=
  match titleOpt with
  | none => some "Title is required and cannot be empty"
  | some t =>
    if jsTrim t = "" then some "Title is required and cannot be empty"
    else
      match statusOpt with
      | none => none
      | some s =>
        if s = "" then none
        else if s ∈ validStatuses then none
        else some "Status must be one of: pending, in progress, completed"

/-- Outcome of POST /tasks. -/
inductive CreateRes where
  | validationError (msg : String)
  | dbError
  | created (t : Task)
deriving Repr, DecidableEq

/-- HTTP status code of each POST /tasks outcome. -/
def CreateRes.httpStatus : CreateRes → Nat
  | .validationError _ => 400
  | .dbError => 500
  | .created _ => 201

/-- The row an INSERT builds (server.js lines 107-114): trimmed title,
`description?.trim() || ''` (which for a present field equals its trim,
since `|| ''` only turns `""` into `""`, and for an absent one is `""`),
the destructuring default `status = 'pending'` (applied only when the
field is absent / `undefined`, not when it is the empty string), a fresh
AUTOINCREMENT id and both timestamp columns defaulted to the current
time. -/
def newRow (idv now : Nat) (titleOpt descOpt statusOpt : Option String) : Task :=
  { id := idv,
    -- title.trim(); validation guarantees titleOpt = some t with trim t ≠ ""
    title := jsTrim (titleOpt.getD ""),
    -- description?.trim() || ''
    description := (descOpt.map jsTrim).getD "",
    -- destructuring default: status = 'pending' only for an absent field
    status := statusOpt.getD "pending",
    created_at := now, updated_at := now }

/-- POST /tasks handler (server.js lines 106-137): `validateTask`
middleware first (HTTP 400 short-circuits before any INSERT), then the
INSERT.  The INSERT hits the schema CHECK constraint when the status
value is outside the enumeration, which surfaces as a database error
(HTTP 500) with nothing persisted; otherwise the new row is appended,
re-read by `this.lastID` and returned with HTTP 201. -/
def createTask (db : Db) (now : Nat) (titleOpt descOpt statusOpt : Option String) :
    Db × CreateRes :=
  match validateTask titleOpt statusOpt with
  | some msg => (db, .validationError msg)
  | none =>
    if (newRow db.nextId now titleOpt descOpt statusOpt).status ∈ validStatuses then
      ({ rows := db.rows ++ [newRow db.nextId now titleOpt descOpt statusOpt],
         nextId := db.nextId + 1 },
       .created (newRow db.nextId now titleOpt descOpt statusOpt))
    else (db, .dbError)

/-- Row predicate of the GET /tasks WHERE clause (server.js lines 67-85):
a status condition is added only for a truthy status different from
`'all'`; a search condition (`LIKE` on title or description) only for a
truthy search string; conditions are joined with AND. -/
def serverRowMatch (statusOpt searchOpt : Option String) (t : Task) : Bool :=
  (match statusOpt with
   | none => true
   | some s => if s = "" ∨ s = "all" then true else decide (t.status = s)) &&
  (match searchOpt with
   | none => true
   | some s => if s = "" then true else likePat s t.title || likePat s t.description)

/-- Insertion of a task into a list sorted by `created_at` descending:
the new row goes after every row with a greater-or-equal timestamp (so
on equal timestamps the already-sorted rows come first). -/
def insertDesc (t : Task) : List Task → List Task
  | [] => [t]
  | u :: us => if t.created_at ≤ u.created_at then u :: insertDesc t us else t :: u :: us

/-- `ORDER BY created_at DESC` as a descending insertion sort.  The
order it picks among rows with equal timestamps is arbitrary (SQLite
leaves the tie order engine-defined); no theorem below depends on it. -/
def sortDesc : List Task → List Task
  | [] => []
  | t :: ts => insertDesc t (sortDesc ts)

/-- GET /tasks handler (server.js lines 67-103): WHERE filtering then
ORDER BY created_at DESC. -/
def listTasks (db : Db) (statusOpt searchOpt : Option String) : List Task :=
  sortDesc (db.rows.filter (serverRowMatch statusOpt searchOpt))

/-- Outcome of PUT /tasks/:id. -/
inductive UpdateRes where
  | validationError (msg : String)
  | notFound
  | dbError
  | updated (t : Task)
deriving Repr, DecidableEq

/-- HTTP status code of each PUT /tasks/:id outcome. -/
def UpdateRes.httpStatus : UpdateRes → Nat
  | .validationError _ => 400
  | .notFound => 404
  | .dbError => 500
  | .updated _ => 200

/-- `description?.trim() || existingTask.description` (server.js line
168): an absent description, or one whose trim is the empty string
(falsy), keeps the existing value. -/
def updDesc (descOpt : Option String) (old : String) : String :=
  match descOpt with
  | none => old
  | some d => if jsTrim d = "" then old else jsTrim d

/-- `status || existingTask.status` (server.js line 169): an absent or
empty-string (falsy) status keeps the existing value. -/
def updStatus (statusOpt : Option String) (old : String) : String :=
  match statusOpt with
  | none => old
  | some s => if s = "" then old else s

/-- The row the UPDATE statement produces from the existing row
(server.js lines 160-171): `id` and `created_at` are not in the SET list
and stay as they were; `updated_at` is set to `CURRENT_TIMESTAMP`. -/
def updRow (ex : Task) (now : Nat) (titleOpt descOpt statusOpt : Option String) : Task :=
  { id := ex.id,
    -- title.trim(); validation guarantees titleOpt = some t with trim t ≠ ""
    title := jsTrim (titleOpt.getD ""),
    description := updDesc descOpt ex.description,
    status := updStatus statusOpt ex.status,
    created_at := ex.created_at, updated_at := now }

/-- PUT /tasks/:id handler (server.js lines 140-195): validation first
(HTTP 400 short-circuits before touching the store), then an existence
check by id (404 when absent), then
`UPDATE tasks SET title = ?, description = ?, status = ?, updated_at = CURRENT_TIMESTAMP WHERE id = ?`.
The CHECK constraint applies to the updated status value (HTTP 500 with
no mutation when violated).  The updated row is re-read by id and
returned.  `id` is the PRIMARY KEY, so at most one row matches the WHERE
clause. -/
def updateTask (db : Db) (now : Nat) (idv : Nat)
    (titleOpt descOpt statusOpt : Option String) : Db × UpdateRes :=
  match validateTask titleOpt statusOpt with
  | some msg => (db, .validationError msg)
  | none =>
    match db.rows.find? (fun t => decide (t.id = idv)) with
    | none => (db, .notFound)
    | some existing =>
      if (updRow existing now titleOpt descOpt statusOpt).status ∈ validStatuses then
        ({ db with rows := db.rows.map (fun t =>
             if t.id = idv then updRow existing now titleOpt descOpt statusOpt
             else t) },
         .updated (updRow existing now titleOpt descOpt statusOpt))
      else (db, .dbError)

/-- Outcome of DELETE /tasks/:id. -/
inductive DeleteRes where
  | notFound
  | deleted (t : Task)
deriving Repr, DecidableEq

/-- HTTP status code of each DELETE /tasks/:id outcome. -/
def DeleteRes.httpStatus : DeleteRes → Nat
  | .notFound => 404
  | .deleted _ => 200

/-- DELETE /tasks/:id handler (server.js lines 198-232): existence check
by id (404 when absent), then `DELETE FROM tasks WHERE id = ?`, answering
with the row as read before the deletion. -/
def deleteTask (db : Db) (idv : Nat) : Db × DeleteRes :=
  match db.rows.find? (fun t => decide (t.id = idv)) with
  | none => (db, .notFound)
  | some existing =>
    ({ db with rows := db.rows.filter (fun t => decide (t.id ≠ idv)) },
     .deleted existing)

/-! ### Client-side filtering (App.tsx lines 127-142) -/

/-- The client's derived filtered view: status equality (skipped when the
filter is `'all'`), then case-insensitive substring search over title or
description (skipped when the search term is empty), applied as two
successive `Array.filter` passes. -/
def clientFilter (tasks : List Task) (statusFilter searchTerm : String) : List Task :=
  let filtered :=
    if statusFilter = "all" then tasks
    else tasks.filter (fun t => decide (t.status = statusFilter))
  if searchTerm = "" then filtered
  else filtered.filter (fun t =>
    listIncl (lowerStr searchTerm) (lowerStr t.title) ||
    listIncl (lowerStr searchTerm) (lowerStr t.description))

/-! ### Matching lemmas -/

theorem anySuffix_of_nil (f : List Char → Bool) (hf : f [] = true) (h : List Char) :
    anySuffix f h = true := by
  induction h with
  | nil => simpa [anySuffix] using hf
  | cons c h ih => simp [anySuffix, ih]

theorem anySuffix_congr (f g : List Char → Bool) (hfg : ∀ x, f x = g x)
    (h : List Char) : anySuffix f h = anySuffix g h := by
  induction h with
  | nil => simp [anySuffix, hfg]
  | cons c h ih => simp [anySuffix, hfg, ih]

theorem likeMatch_pctOnly (h : List Char) : likeMatch ['%'] h = true := by
  simp only [likeMatch]
  exact anySuffix_of_nil _ rfl h

theorem likeMatch_plain_pct (s : List Char) (hs : noWild s = true) (h : List Char) :
    likeMatch (s ++ ['%']) h = matchHere s h := by
  induction s generalizing h with
  | nil => simp [matchHere, likeMatch_pctOnly]
  | cons c s ih =>
    simp only [noWild, List.all_cons, Bool.and_eq_true, decide_eq_true_eq] at hs
    obtain ⟨⟨hc1, hc2⟩, hs'⟩ := hs
    have hs'' : noWild s = true := hs'
    cases h with
    | nil => simp [likeMatch, matchHere, hc1]
    | cons d h =>
      simp [likeMatch, matchHere, hc1, hc2, ih hs'' h]

theorem likeMatch_pct_pat (s : List Char) (hs : noWild s = true) (h : List Char) :
    likeMatch ('%' :: (s ++ ['%'])) h = containsCI s h := by
  simp only [likeMatch, if_pos rfl, containsCI]
  exact anySuffix_congr _ _ (fun x => likeMatch_plain_pct s hs x) h

theorem matchHere_lower (s h : List Char) :
    matchHere s h = headMatch (s.map Char.toLower) (h.map Char.toLower) := by
  induction s generalizing h with
  | nil => cases h <;> rfl
  | cons c s ih =>
    cases h with
    | nil => rfl
    | cons d h => simp [matchHere, headMatch, charEqCI, ih]

theorem containsCI_lower (s h : List Char) :
    containsCI s h = listIncl (s.map Char.toLower) (h.map Char.toLower) := by
  induction h with
  | nil => simp [containsCI, listIncl, anySuffix, matchHere_lower]
  | cons d h ih =>
    simp only [containsCI, listIncl, anySuffix, List.map_cons] at ih ⊢
    rw [matchHere_lower, ih, List.map_cons]

/-! ### Handler computation lemmas -/

theorem ne_empty_of_mem_validStatuses {s : String} (hs : s ∈ validStatuses) :
    s ≠ "" := by
  simp only [validStatuses, List.mem_cons, List.not_mem_nil, or_false] at hs
  rcases hs with h | h | h <;> subst h <;> decide

theorem validateTask_ok (ti : String) (statusOpt : Option String)
    (ht : jsTrim ti ≠ "")
    (hst : ∀ s, statusOpt = some s → s = "" ∨ s ∈ validStatuses) :
    validateTask (some ti) statusOpt = none := by
  cases statusOpt with
  | none => simp [validateTask, ht]
  | some s =>
    rcases hst s rfl with h | h
    · simp [validateTask, ht, h]
    · simp [validateTask, ht, ne_empty_of_mem_validStatuses h, h]

theorem createTask_eq (db : Db) (now : Nat) (ti : String)
    (descOpt statusOpt : Option String)
    (ht : jsTrim ti ≠ "") (hst : ∀ s, statusOpt = some s → s ∈ validStatuses) :
    createTask db now (some ti) descOpt statusOpt =
      ({ rows := db.rows ++ [newRow db.nextId now (some ti) descOpt statusOpt],
         nextId := db.nextId + 1 },
       .created (newRow db.nextId now (some ti) descOpt statusOpt)) := by
  have hv : validateTask (some ti) statusOpt = none :=
    validateTask_ok ti statusOpt ht (fun s hs => Or.inr (hst s hs))
  have hs2 : (newRow db.nextId now (some ti) descOpt statusOpt).status ∈ validStatuses := by
    cases statusOpt with
    | none =>
      simp only [newRow, Option.getD_none]
      decide
    | some s => simpa [newRow] using hst s rfl
  unfold createTask
  rw [hv]
  simp [hs2]

theorem updStatus_mem (statusOpt : Option String) (old : String)
    (hold : old ∈ validStatuses)
    (hst : ∀ s, statusOpt = some s → s = "" ∨ s ∈ validStatuses) :
    updStatus statusOpt old ∈ validStatuses := by
  cases statusOpt with
  | none => exact hold
  | some s =>
    rcases hst s rfl with h | h
    · simpa [updStatus, h] using hold
    · simp [updStatus, ne_empty_of_mem_validStatuses h, h]

theorem updateTask_eq (db : Db) (now idv : Nat) (ti : String)
    (descOpt statusOpt : Option String) (ex : Task)
    (hfind : db.rows.find? (fun t => decide (t.id = idv)) = some ex)
    (ht : jsTrim ti ≠ "")
    (hst : ∀ s, statusOpt = some s → s = "" ∨ s ∈ validStatuses)
    (hcheck : updStatus statusOpt ex.status ∈ validStatuses) :
    updateTask db now idv (some ti) descOpt statusOpt =
      ({ db with rows := db.rows.map (fun t =>
            if t.id = idv then updRow ex now (some ti) descOpt statusOpt else t) },
       .updated (updRow ex now (some ti) descOpt statusOpt)) := by
  have hv : validateTask (some ti) statusOpt = none :=
    validateTask_ok ti statusOpt ht hst
  have hs2 : (updRow ex now (some ti) descOpt statusOpt).status ∈ validStatuses := by
    simpa [updRow] using hcheck
  unfold updateTask
  rw [hv, hfind]
  simp [hs2]

/-! ### List helper lemmas -/

theorem map_update_of_ne {l : List Task} {idv : Nat} {u : Task}
    (h : ∀ t ∈ l, t.id ≠ idv) :
    l.map (fun t => if t.id = idv then u else t) = l := by
  induction l with
  | nil => rfl
  | cons a l ih =>
    rw [List.map_cons, if_neg (h a (List.mem_cons_self a l)),
      ih (fun t ht => h t (List.mem_cons_of_mem a ht))]

theorem filter_keep_of_ne {l : List Task} {idv : Nat}
    (h : ∀ t ∈ l, t.id ≠ idv) :
    l.filter (fun t => decide (t.id ≠ idv)) = l :=
  List.filter_eq_self.mpr (fun t ht => by simpa using h t ht)

theorem find?_id_append_right {l1 l2 : List Task} {idv : Nat}
    (h : ∀ t ∈ l1, t.id ≠ idv) :
    (l1 ++ l2).find? (fun t => decide (t.id = idv)) =
      l2.find? (fun t => decide (t.id = idv)) := by
  have h1 : l1.find? (fun t => decide (t.id = idv)) = none :=
    List.find?_eq_none.mpr (fun t ht => by simpa using h t ht)
  rw [List.find?_append, h1, Option.none_or]

theorem find?_map_update {l : List Task} {idv : Nat} {ex u : Task}
    (hfind : l.find? (fun t => decide (t.id = idv)) = some ex)
    (hu : u.id = idv) :
    (l.map (fun t => if t.id = idv then u else t)).find?
        (fun t => decide (t.id = idv)) = some u := by
  induction l with
  | nil => simp at hfind
  | cons a l ih =>
    by_cases ha : a.id = idv
    · simp [List.find?_cons, ha, hu]
    · rw [List.find?_cons_of_neg _ (by simpa using ha)] at hfind
      simp only [List.map_cons, if_neg ha]
      rw [List.find?_cons_of_neg _ (by simpa using ha)]
      exact ih hfind

/-! ### Filtering: specification predicate and client/server equivalence -/

theorem containsCI_nil (h : List Char) : containsCI [] h = true :=
  anySuffix_of_nil _ rfl h

/-- The specification's list predicate: exact status match against the
enumeration (no status filtering when the parameter is absent, empty, or
`"all"`), AND a case-insensitive substring match of the search term
against title or description. -/
def specRowMatch (statusOpt searchOpt : Option String) (t : Task) : Bool :=
  (match statusOpt with
   | none => true
   | some s => if s = "" ∨ s = "all" then true else decide (t.status = s)) &&
  (match searchOpt with
   | none => true
   | some s => containsCI s.data t.title.data || containsCI s.data t.description.data)

/-- The (optional) search parameter is free of LIKE wildcards. -/
def searchOk (searchOpt : Option String) : Prop :=
  ∀ s, searchOpt = some s → noWild s.data = true

theorem likePat_eq_containsCI (s : String) (hnw : noWild s.data = true)
    (field : String) : likePat s field = containsCI s.data field.data := by
  rw [likePat, likeMatch_pct_pat s.data hnw]

theorem serverRowMatch_eq_spec (statusOpt searchOpt : Option String)
    (hs : searchOk searchOpt) (t : Task) :
    serverRowMatch statusOpt searchOpt t = specRowMatch statusOpt searchOpt t := by
  unfold serverRowMatch specRowMatch
  congr 1
  cases searchOpt with
  | none => rfl
  | some s =>
    have hnw := hs s rfl
    by_cases he : s = ""
    · subst he
      simp [containsCI_nil]
    · simp only [if_neg he]
      rw [likePat_eq_containsCI s hnw, likePat_eq_containsCI s hnw]

theorem mem_insertDesc (t a : Task) (l : List Task) :
    t ∈ insertDesc a l ↔ t = a ∨ t ∈ l := by
  induction l with
  | nil => simp [insertDesc]
  | cons b l ih =>
    by_cases hb : a.created_at ≤ b.created_at
    · simp only [insertDesc, if_pos hb, List.mem_cons, ih]
      tauto
    · simp only [insertDesc, if_neg hb, List.mem_cons]

theorem mem_sortDesc (t : Task) (l : List Task) : t ∈ sortDesc l ↔ t ∈ l := by
  induction l with
  | nil => simp [sortDesc]
  | cons a l ih => simp [sortDesc, mem_insertDesc, ih]

theorem jsToLower_eq_toLower (c : Char) (hc : asciiChar c = true) :
    jsToLower c = Char.toLower c := by
  have h : c.toNat ≤ 127 := by simpa [asciiChar] using hc
  unfold jsToLower Char.toLower
  by_cases h1 : c.toNat ≥ 65 ∧ c.toNat ≤ 90
  · simp [h1]
  · have h2 : ¬(c.toNat ≥ 192 ∧ c.toNat ≤ 222 ∧ c.toNat ≠ 215) := by omega
    simp [h1, h2]

theorem lowerStr_ascii (f : String) (hf : asciiStr f = true) :
    lowerStr f = f.data.map Char.toLower :=
  List.map_congr_left (fun c hc =>
    jsToLower_eq_toLower c (List.all_eq_true.mp hf c hc))

theorem ci_search_eq_client (st field : String) (hst : asciiStr st = true)
    (hf : asciiStr field = true) :
    containsCI st.data field.data = listIncl (lowerStr st) (lowerStr field) := by
  rw [containsCI_lower, lowerStr_ascii st hst, lowerStr_ascii field hf]

/-! ### Claim theorems -/

theorem validateTask_fail (titleOpt statusOpt : Option String)
    (hbad : (∀ ti, titleOpt = some ti → jsTrim ti = "") ∨
            (∃ s, statusOpt = some s ∧ s ≠ "" ∧ s ∉ validStatuses)) :
    ∃ m, validateTask titleOpt statusOpt = some m := by
  cases titleOpt with
  | none => exact ⟨_, rfl⟩
  | some ti =>
    by_cases hti : jsTrim ti = ""
    · exact ⟨"Title is required and cannot be empty", by simp [validateTask, hti]⟩
    · rcases hbad with h | ⟨st, hs, hne, hnv⟩
      · exact absurd (h ti rfl) hti
      · subst hs
        exact ⟨"Status must be one of: pending, in progress, completed",
          by simp [validateTask, hti, hne, hnv]⟩

/-- C1 (counterexample): a create request that supplies `status` as the
empty string — a supplied value outside the three valid ones — is NOT
rejected with a validation error (HTTP 400); it reaches the store, where
the INSERT fails against the CHECK constraint as a database error
(HTTP 500). -/
theorem c1_counterexample :
    (createTask ⟨[], 1⟩ 0 (some "a") none (some "")).2 = CreateRes.dbError ∧
    (createTask ⟨[], 1⟩ 0 (some "a") none (some "")).2.httpStatus = 500 := by
  constructor <;> rfl

/-- C1 (amended): for every create or update request, if the title is
absent, empty or whitespace-only, or if a NON-EMPTY status is supplied
that is not one of the three valid values, the operation fails with a
validation error (HTTP 400) before any store mutation is attempted, and
no record is persisted or modified. -/
theorem c1_validation_rejects (db : Db) (now idv : Nat)
    (titleOpt descOpt statusOpt : Option String)
    (hbad : (∀ ti, titleOpt = some ti → jsTrim ti = "") ∨
            (∃ s, statusOpt = some s ∧ s ≠ "" ∧ s ∉ validStatuses)) :
    ((createTask db now titleOpt descOpt statusOpt).1 = db ∧
     (createTask db now titleOpt descOpt statusOpt).2.httpStatus = 400) ∧
    ((updateTask db now idv titleOpt descOpt statusOpt).1 = db ∧
     (updateTask db now idv titleOpt descOpt statusOpt).2.httpStatus = 400) := by
  obtain ⟨m, hm⟩ := validateTask_fail titleOpt statusOpt hbad
  refine ⟨⟨?_, ?_⟩, ⟨?_, ?_⟩⟩ <;>
    simp [createTask, updateTask, hm, CreateRes.httpStatus, UpdateRes.httpStatus]

/-- C1 witness: the whitespace-only title `"   "` is rejected with HTTP
400 and no mutation, on a sample store, for both create and update. -/
theorem c1_validation_rejects_witness :
    ((createTask ⟨[], 1⟩ 0 (some "   ") none none).1 = ⟨[], 1⟩ ∧
     (createTask ⟨[], 1⟩ 0 (some "   ") none none).2.httpStatus = 400) ∧
    ((updateTask ⟨[], 1⟩ 0 5 (some "   ") none none).1 = ⟨[], 1⟩ ∧
     (updateTask ⟨[], 1⟩ 0 5 (some "   ") none none).2.httpStatus = 400) :=
  c1_validation_rejects ⟨[], 1⟩ 0 5 (some "   ") none none
    (Or.inl (fun ti h => by cases h; decide))

/-- C2: every successful create stores (and returns) a record with the
title and description trimmed, status defaulted to `"pending"` exactly
when absent, a fresh id never used by an existing row, and both
timestamps stamped to the current time; the new record is appended to
the store. -/
theorem c2_create_success (db : Db) (now : Nat) (ti : String)
    (descOpt statusOpt : Option String)
    (hwf : WfDb db) (ht : jsTrim ti ≠ "")
    (hst : ∀ s, statusOpt = some s → s ∈ validStatuses) :
    createTask db now (some ti) descOpt statusOpt =
      ({ rows := db.rows ++
          [{ id := db.nextId, title := jsTrim ti,
             description := (descOpt.map jsTrim).getD "",
             status := statusOpt.getD "pending",
             created_at := now, updated_at := now }],
         nextId := db.nextId + 1 },
       .created
          { id := db.nextId, title := jsTrim ti,
            description := (descOpt.map jsTrim).getD "",
            status := statusOpt.getD "pending",
            created_at := now, updated_at := now }) ∧
    db.nextId ∉ db.rows.map Task.id := by
  constructor
  · simpa [newRow] using createTask_eq db now ti descOpt statusOpt ht hst
  · intro hmem
    rcases List.mem_map.mp hmem with ⟨t, htm, hid⟩
    exact absurd (hid ▸ hwf t htm) (lt_irrefl _)

/-- C2 witness: creating `{title: "Buy milk"}` with no status on the
empty store yields a stored record with status `"pending"`. -/
theorem c2_create_success_witness :
    createTask ⟨[], 1⟩ 7 (some "Buy milk") none none =
      ({ rows := [{ id := 1, title := "Buy milk", description := "",
                    status := "pending", created_at := 7, updated_at := 7 }],
         nextId := 2 },
       .created { id := 1, title := "Buy milk", description := "",
                  status := "pending", created_at := 7, updated_at := 7 }) ∧
    (1 : Nat) ∉ ([] : List Task).map Task.id := by
  have h := c2_create_success ⟨[], 1⟩ 7 "Buy milk" none none
    (by decide) (by decide) (fun s hs => nomatch hs)
  simpa using h

/-- C3 (counterexample): updating a task while supplying
`description: "  "` (whitespace-only, so trimmed to `""`) and
`status: ""` does NOT overwrite either field: the stored record keeps
the old description `"old desc"` (not `""`) and old status `"pending"`
(not `""`). -/
theorem c3_counterexample :
    (updateTask ⟨[{ id := 1, title := "Old", description := "old desc",
                     status := "pending", created_at := 3, updated_at := 3 }], 2⟩
        9 1 (some "New") (some "  ") (some "")).2 =
      UpdateRes.updated { id := 1, title := "New", description := "old desc",
                          status := "pending", created_at := 3, updated_at := 9 } ∧
    ("old desc" : String) ≠ "" ∧ ("pending" : String) ≠ "" := by
  refine ⟨by rfl, by decide, by decide⟩

/-- C3 (amended): every successful update of an existing task overwrites
the title with the trimmed supplied title, overwrites the status with
the supplied status when it is non-empty (else retains the existing
value, also when absent), overwrites the description with its trimmed
value when it is supplied with a non-empty trim (else retains the
existing value), refreshes `updated_at`, and returns the updated
record. -/
theorem c3_update_success (db : Db) (now idv : Nat) (ti : String)
    (descOpt statusOpt : Option String) (ex : Task)
    (hfind : db.rows.find? (fun t => decide (t.id = idv)) = some ex)
    (ht : jsTrim ti ≠ "")
    (hst : ∀ s, statusOpt = some s → s = "" ∨ s ∈ validStatuses)
    (hcheck : updStatus statusOpt ex.status ∈ validStatuses) :
    updateTask db now idv (some ti) descOpt statusOpt =
      ({ db with rows := db.rows.map (fun t =>
            if t.id = idv then
              { id := ex.id, title := jsTrim ti,
                description := updDesc descOpt ex.description,
                status := updStatus statusOpt ex.status,
                created_at := ex.created_at, updated_at := now }
            else t) },
       .updated { id := ex.id, title := jsTrim ti,
                  description := updDesc descOpt ex.description,
                  status := updStatus statusOpt ex.status,
                  created_at := ex.created_at, updated_at := now }) := by
  simpa [updRow] using
    updateTask_eq db now idv ti descOpt statusOpt ex hfind ht hst hcheck

/-- C3 witness: a concrete successful update (new title `" New "`,
description `" x "`, status `"completed"`) trims the title and
description, overwrites the status, and refreshes `updated_at`. -/
theorem c3_update_success_witness :
    updateTask ⟨[{ id := 1, title := "Old", description := "old desc",
                    status := "pending", created_at := 3, updated_at := 3 }], 2⟩
        9 1 (some " New ") (some " x ") (some "completed") =
      (⟨[{ id := 1, title := "New", description := "x",
           status := "completed", created_at := 3, updated_at := 9 }], 2⟩,
       .updated { id := 1, title := "New", description := "x",
                  status := "completed", created_at := 3, updated_at := 9 }) := by
  have h := c3_update_success
    ⟨[{ id := 1, title := "Old", description := "old desc",
        status := "pending", created_at := 3, updated_at := 3 }], 2⟩ 9 1
    " New " (some " x ") (some "completed")
    { id := 1, title := "Old", description := "old desc",
      status := "pending", created_at := 3, updated_at := 3 }
    (by rfl) (by decide) (fun s hs => by cases hs; exact Or.inr (by decide))
    (by decide)
  simpa [updDesc, updStatus, jsTrim] using h

/-- C4: deleting a nonexistent id fails with a not-found error and
leaves the collection unchanged; deleting an existing id permanently
removes that record (and only it) and returns its state just before the
deletion; and the round trip create(title="X") → update(id, title="Y")
→ delete(id) restores the original collection (so neither "X" nor "Y"
remains, given they were not present before) while the delete payload
carries title "Y". -/
theorem c4_delete (db : Db) (idv t1 t2 : Nat)
    (hwf : WfDb db)
    (htitles : ∀ t ∈ db.rows, t.title ≠ "X" ∧ t.title ≠ "Y") :
    (db.rows.find? (fun t => decide (t.id = idv)) = none →
      deleteTask db idv = (db, .notFound) ∧
      (deleteTask db idv).1.rows.length = db.rows.length) ∧
    (∀ ex, db.rows.find? (fun t => decide (t.id = idv)) = some ex →
      deleteTask db idv =
        ({ db with rows := db.rows.filter (fun t => decide (t.id ≠ idv)) },
         .deleted ex) ∧
      ∀ t ∈ (deleteTask db idv).1.rows, t.id ≠ idv) ∧
    ((deleteTask (updateTask (createTask db t1 (some "X") none none).1 t2
        db.nextId (some "Y") none none).1 db.nextId).1.rows = db.rows ∧
     (∀ t ∈ (deleteTask (updateTask (createTask db t1 (some "X") none none).1 t2
        db.nextId (some "Y") none none).1 db.nextId).1.rows,
        t.title ≠ "X" ∧ t.title ≠ "Y") ∧
     ∃ u, (deleteTask (updateTask (createTask db t1 (some "X") none none).1 t2
        db.nextId (some "Y") none none).1 db.nextId).2 = .deleted u ∧
       u.title = "Y") := by
  have hids : ∀ t ∈ db.rows, t.id ≠ db.nextId := fun t htm => Nat.ne_of_lt (hwf t htm)
  refine ⟨?_, ?_, ?_⟩
  · intro hnone
    have hd : deleteTask db idv = (db, .notFound) := by
      unfold deleteTask
      rw [hnone]
    exact ⟨hd, by rw [hd]⟩
  · intro ex hsome
    have hd : deleteTask db idv =
        ({ db with rows := db.rows.filter (fun t => decide (t.id ≠ idv)) },
         .deleted ex) := by
      unfold deleteTask
      rw [hsome]
    refine ⟨hd, ?_⟩
    rw [hd]
    intro t htm
    simpa using (List.mem_filter.mp htm).2
  · have h1 : (createTask db t1 (some "X") none none).1 =
        (⟨db.rows ++ [newRow db.nextId t1 (some "X") none none],
          db.nextId + 1⟩ : Db) := by
      rw [createTask_eq db t1 "X" none none (by decide) (fun s h => nomatch h)]
    have hfindA : (db.rows ++ [newRow db.nextId t1 (some "X") none none]).find?
        (fun t => decide (t.id = db.nextId)) =
        some (newRow db.nextId t1 (some "X") none none) := by
      rw [find?_id_append_right hids]
      exact List.find?_cons_of_pos _ (by simp [newRow])
    have h2 := updateTask_eq
      ⟨db.rows ++ [newRow db.nextId t1 (some "X") none none], db.nextId + 1⟩
      t2 db.nextId "Y" none none (newRow db.nextId t1 (some "X") none none)
      hfindA (by decide) (fun s h => nomatch h)
      (show ("pending" : String) ∈ validStatuses by decide)
    have hmap : (db.rows ++ [newRow db.nextId t1 (some "X") none none]).map
        (fun t => if t.id = db.nextId then
          updRow (newRow db.nextId t1 (some "X") none none) t2 (some "Y") none none
          else t) =
        db.rows ++ [updRow (newRow db.nextId t1 (some "X") none none) t2
          (some "Y") none none] := by
      rw [List.map_append, map_update_of_ne hids]
      simp [newRow]
    have hfindU : (db.rows ++ [updRow (newRow db.nextId t1 (some "X") none none)
        t2 (some "Y") none none]).find? (fun t => decide (t.id = db.nextId)) =
        some (updRow (newRow db.nextId t1 (some "X") none none) t2
          (some "Y") none none) := by
      rw [find?_id_append_right hids]
      exact List.find?_cons_of_pos _ (by simp [updRow, newRow])
    have hfil : (db.rows ++ [updRow (newRow db.nextId t1 (some "X") none none)
        t2 (some "Y") none none]).filter (fun t => decide (t.id ≠ db.nextId)) =
        db.rows := by
      rw [List.filter_append, filter_keep_of_ne hids]
      simp [updRow, newRow]
    have h3 : deleteTask (⟨db.rows ++ [updRow
        (newRow db.nextId t1 (some "X") none none) t2 (some "Y") none none],
        db.nextId + 1⟩ : Db) db.nextId =
        (⟨db.rows, db.nextId + 1⟩,
         .deleted (updRow (newRow db.nextId t1 (some "X") none none) t2
           (some "Y") none none)) := by
      unfold deleteTask
      rw [hfindU, hfil]
    simp only [h1, h2, hmap, h3]
    refine ⟨trivial, htitles, ⟨_, rfl, ?_⟩⟩
    exact (by decide : jsTrim "Y" = "Y")

/-- C4 witness: on a one-task store, deleting the missing id 5 is a 404
with the count unchanged, deleting the existing id 1 removes it and
returns it, and the X→Y round trip behaves as stated. -/
theorem c4_delete_witness :
    (List.find? (fun t => decide (t.id = 5)) ([] : List Task) = none →
      deleteTask ⟨[], 1⟩ 5 = (⟨[], 1⟩, .notFound) ∧
      (deleteTask ⟨[], 1⟩ 5).1.rows.length = ([] : List Task).length) ∧
    (∀ ex, List.find? (fun t => decide (t.id = 5)) ([] : List Task) = some ex →
      deleteTask ⟨[], 1⟩ 5 =
        (⟨List.filter (fun t => decide (t.id ≠ 5)) [], 1⟩, .deleted ex) ∧
      ∀ t ∈ (deleteTask ⟨[], 1⟩ 5).1.rows, t.id ≠ 5) ∧
    ((deleteTask (updateTask (createTask ⟨[], 1⟩ 3 (some "X") none none).1 4
        1 (some "Y") none none).1 1).1.rows = [] ∧
     (∀ t ∈ (deleteTask (updateTask (createTask ⟨[], 1⟩ 3 (some "X") none
        none).1 4 1 (some "Y") none none).1 1).1.rows,
        t.title ≠ "X" ∧ t.title ≠ "Y") ∧
     ∃ u, (deleteTask (updateTask (createTask ⟨[], 1⟩ 3 (some "X") none
        none).1 4 1 (some "Y") none none).1 1).2 = .deleted u ∧
       u.title = "Y") :=
  c4_delete ⟨[], 1⟩ 5 3 4 (by decide) (by decide)

/-- C5: creating tasks A, B, C in that order (at strictly increasing
creation times, from an empty store) and listing with no filters
returns them newest-first: [C, B, A]. -/
theorem c5_list_order (a b c : String) (da dbo dc : Option String)
    (t1 t2 t3 : Nat)
    (ha : jsTrim a ≠ "") (hb : jsTrim b ≠ "") (hc : jsTrim c ≠ "")
    (h12 : t1 < t2) (h23 : t2 < t3) :
    listTasks (createTask (createTask (createTask ⟨[], 1⟩ t1 (some a) da
        none).1 t2 (some b) dbo none).1 t3 (some c) dc none).1 none none =
      [newRow 3 t3 (some c) dc none, newRow 2 t2 (some b) dbo none,
       newRow 1 t1 (some a) da none] := by
  have h1 := createTask_eq ⟨[], 1⟩ t1 a da none ha (fun s h => nomatch h)
  have h2 := createTask_eq ⟨[newRow 1 t1 (some a) da none], 2⟩ t2 b dbo none
    hb (fun s h => nomatch h)
  have h3 := createTask_eq ⟨[newRow 1 t1 (some a) da none,
      newRow 2 t2 (some b) dbo none], 3⟩ t3 c dc none hc (fun s h => nomatch h)
  simp only [h1, List.nil_append, h2, List.cons_append, h3]
  unfold listTasks
  have hfil : List.filter (serverRowMatch none none)
      [newRow 1 t1 (some a) da none, newRow 2 t2 (some b) dbo none,
       newRow 3 t3 (some c) dc none] =
      [newRow 1 t1 (some a) da none, newRow 2 t2 (some b) dbo none,
       newRow 3 t3 (some c) dc none] :=
    List.filter_eq_self.mpr (fun t _ => rfl)
  rw [hfil]
  simp [sortDesc, insertDesc, newRow, h12.le, h23.le, (h12.trans h23).le]

/-- C5 witness: three concrete creations at times 1 < 2 < 3 list as
[C, B, A]. -/
theorem c5_list_order_witness :
    listTasks (createTask (createTask (createTask ⟨[], 1⟩ 1 (some "A") none
        none).1 2 (some "B") none none).1 3 (some "C") none none).1 none none =
      [newRow 3 3 (some "C") none none, newRow 2 2 (some "B") none none,
       newRow 1 1 (some "A") none none] :=
  c5_list_order "A" "B" "C" none none none 1 2 3
    (by decide) (by decide) (by decide) (by decide) (by decide)

/-- C8: for every valid status s (one of the three enumeration values),
updating an existing task's status to s and reading the task back
yields status s. -/
theorem c8_status_roundtrip (db : Db) (now idv : Nat) (ti : String)
    (descOpt : Option String) (s : String) (ex : Task)
    (hs : s ∈ validStatuses)
    (hfind : db.rows.find? (fun t => decide (t.id = idv)) = some ex)
    (ht : jsTrim ti ≠ "") :
    ∃ db2 u, updateTask db now idv (some ti) descOpt (some s) =
        (db2, .updated u) ∧
      u.status = s ∧
      db2.rows.find? (fun t => decide (t.id = idv)) = some u := by
  have hne := ne_empty_of_mem_validStatuses hs
  have hsu : updStatus (some s) ex.status = s := by simp [updStatus, hne]
  have h := updateTask_eq db now idv ti descOpt (some s) ex hfind ht
    (fun s2 h2 => by cases h2; exact Or.inr hs) (by rw [hsu]; exact hs)
  refine ⟨_, _, h, ?_, ?_⟩
  · simp [updRow, hsu]
  · have hexid : ex.id = idv := by simpa using List.find?_some hfind
    exact find?_map_update hfind (by simp [updRow, hexid])

/-- C8 witness: updating the stored task's status to "completed" and
reading it back yields "completed". -/
theorem c8_status_roundtrip_witness :
    ∃ db2 u, updateTask ⟨[⟨1, "t", "", "pending", 0, 0⟩], 2⟩ 9 1
        (some "t") none (some "completed") = (db2, .updated u) ∧
      u.status = "completed" ∧
      db2.rows.find? (fun t => decide (t.id = 1)) = some u :=
  c8_status_roundtrip ⟨[⟨1, "t", "", "pending", 0, 0⟩], 2⟩ 9 1 "t"
    none "completed" ⟨1, "t", "", "pending", 0, 0⟩
    (by decide) (by rfl) (by decide)

/-- C9: every successful update leaves the record's id and created_at
unchanged (they come from the existing row) and affects no other record:
the new store is the old one with only the row of the given id replaced,
and every other row is still present. -/
theorem c9_update_frame (db : Db) (now idv : Nat)
    (titleOpt descOpt statusOpt : Option String) (db2 : Db) (u : Task)
    (h : updateTask db now idv titleOpt descOpt statusOpt = (db2, .updated u)) :
    ∃ ex, db.rows.find? (fun t => decide (t.id = idv)) = some ex ∧
      u.id = ex.id ∧ u.created_at = ex.created_at ∧
      db2.rows = db.rows.map (fun t => if t.id = idv then u else t) ∧
      ∀ t ∈ db.rows, t.id ≠ idv → t ∈ db2.rows := by
  unfold updateTask at h
  split at h
  · simp at h
  · split at h
    · simp at h
    · rename_i ex hfind
      split at h
      · simp only [Prod.mk.injEq, UpdateRes.updated.injEq] at h
        obtain ⟨h1, h2⟩ := h
        refine ⟨ex, hfind, ?_, ?_, ?_, ?_⟩
        · rw [← h2]; rfl
        · rw [← h2]; rfl
        · rw [← h1, ← h2]
        · intro t htm htne
          rw [← h1]
          exact List.mem_map.mpr ⟨t, htm, by rw [if_neg htne]⟩
      · simp at h

/-- C9 witness: a concrete successful update keeps id 1 and created_at 3
and the store is exactly the single-row replacement. -/
theorem c9_update_frame_witness :
    ∃ ex, List.find? (fun t => decide (t.id = 1))
        [(⟨1, "t", "", "pending", 3, 3⟩ : Task)] = some ex ∧
      (⟨1, "u", "", "pending", 3, 9⟩ : Task).id = ex.id ∧
      (⟨1, "u", "", "pending", 3, 9⟩ : Task).created_at = ex.created_at ∧
      (⟨[⟨1, "u", "", "pending", 3, 9⟩], 2⟩ : Db).rows =
        List.map (fun t => if t.id = 1 then (⟨1, "u", "", "pending", 3, 9⟩ : Task)
          else t) [(⟨1, "t", "", "pending", 3, 3⟩ : Task)] ∧
      ∀ t ∈ [(⟨1, "t", "", "pending", 3, 3⟩ : Task)], t.id ≠ 1 →
        t ∈ (⟨[⟨1, "u", "", "pending", 3, 9⟩], 2⟩ : Db).rows :=
  c9_update_frame ⟨[⟨1, "t", "", "pending", 3, 3⟩], 2⟩ 9 1
    (some "u") none none ⟨[⟨1, "u", "", "pending", 3, 9⟩], 2⟩
    ⟨1, "u", "", "pending", 3, 9⟩ (by rfl)

/-- C10: a create or update request supplying status as the empty string
passes validation (the enum check is skipped for a falsy status); on
create the empty string is not replaced by the "pending" default, the
INSERT fails against the CHECK constraint and the request ends as an
HTTP 500 store error with nothing persisted; on update the empty status
silently falls back to the task's existing status and the update
succeeds. -/
theorem c10_empty_status (db : Db) (now idv : Nat) (ti : String)
    (descOpt : Option String) (ex : Task)
    (ht : jsTrim ti ≠ "")
    (hfind : db.rows.find? (fun t => decide (t.id = idv)) = some ex)
    (hex : ex.status ∈ validStatuses) :
    validateTask (some ti) (some "") = none ∧
    createTask db now (some ti) descOpt (some "") = (db, .dbError) ∧
    (createTask db now (some ti) descOpt (some "")).2.httpStatus = 500 ∧
    ∃ db2, updateTask db now idv (some ti) descOpt (some "") =
        (db2, .updated (updRow ex now (some ti) descOpt (some ""))) ∧
      (updRow ex now (some ti) descOpt (some "")).status = ex.status := by
  have hval : validateTask (some ti) (some "") = none :=
    validateTask_ok ti (some "") ht (fun s h => by cases h; exact Or.inl rfl)
  have hnv : (newRow db.nextId now (some ti) descOpt (some "")).status ∉
      validStatuses := by
    simp [newRow, validStatuses]
  have hcr : createTask db now (some ti) descOpt (some "") = (db, .dbError) := by
    unfold createTask
    rw [hval]
    simp [hnv]
  have hst2 : updStatus (some "") ex.status = ex.status := by simp [updStatus]
  have hupd := updateTask_eq db now idv ti descOpt (some "") ex hfind ht
    (fun s h => by cases h; exact Or.inl rfl) (by rw [hst2]; exact hex)
  exact ⟨hval, hcr, by rw [hcr]; rfl, ⟨_, hupd, by simp [updRow, hst2]⟩⟩

/-- C10 witness: with one stored pending task, status "" passes
validation, create with status "" is a 500 store error with nothing
persisted, and update with status "" succeeds keeping status
"pending". -/
theorem c10_empty_status_witness :
    validateTask (some "t") (some "") = none ∧
    createTask ⟨[⟨1, "t", "", "pending", 0, 0⟩], 2⟩ 9
      (some "t") none (some "") =
      (⟨[⟨1, "t", "", "pending", 0, 0⟩], 2⟩, .dbError) ∧
    (createTask ⟨[⟨1, "t", "", "pending", 0, 0⟩], 2⟩ 9
      (some "t") none (some "")).2.httpStatus = 500 ∧
    ∃ db2, updateTask ⟨[⟨1, "t", "", "pending", 0, 0⟩], 2⟩ 9 1
      (some "t") none (some "") =
        (db2, .updated (updRow ⟨1, "t", "", "pending", 0, 0⟩ 9
          (some "t") none (some ""))) ∧
      (updRow ⟨1, "t", "", "pending", 0, 0⟩ 9
        (some "t") none (some "")).status =
      (⟨1, "t", "", "pending", 0, 0⟩ : Task).status :=
  c10_empty_status ⟨[⟨1, "t", "", "pending", 0, 0⟩], 2⟩ 9 1 "t"
    none ⟨1, "t", "", "pending", 0, 0⟩
    (by decide) (by rfl) (by decide)

/-- C6 (counterexample): the unescaped LIKE pattern and the falsy-status
skip break the claim as stated.  With a single task titled "a": a list
request with search "%" returns the task although "%" is not, under any
case mapping, a substring of "a" or of ""; and a list request with
status "" returns the task although its status is "pending" ≠ "". -/
theorem c6_counterexample :
    listTasks ⟨[⟨1, "a", "", "pending", 0, 0⟩], 2⟩ none (some "%") =
      [⟨1, "a", "", "pending", 0, 0⟩] ∧
    containsCI "%".data "a".data = false ∧
    containsCI "%".data "".data = false ∧
    listTasks ⟨[⟨1, "a", "", "pending", 0, 0⟩], 2⟩ (some "") none =
      [⟨1, "a", "", "pending", 0, 0⟩] ∧
    (⟨1, "a", "", "pending", 0, 0⟩ : Task).status ≠ "" := by
  refine ⟨by rfl, by rfl, by rfl, by rfl, by decide⟩

/-- C6 (amended): for every list request whose search term is free of
the LIKE wildcards `%` and `_`, the result contains exactly the tasks
satisfying both filters as a logical AND — status is an exact match
against the enumeration (no status filtering when the status parameter
is absent, empty, or "all"), and the search term is a case-insensitive
substring match against title OR description — ordered by created_at
descending. -/
theorem c6_list_filter (db : Db) (statusOpt searchOpt : Option String)
    (hs : searchOk searchOpt) :
    listTasks db statusOpt searchOpt =
      sortDesc (db.rows.filter (specRowMatch statusOpt searchOpt)) ∧
    ∀ t, t ∈ listTasks db statusOpt searchOpt ↔
      t ∈ db.rows ∧ specRowMatch statusOpt searchOpt t = true := by
  have hfe : db.rows.filter (serverRowMatch statusOpt searchOpt) =
      db.rows.filter (specRowMatch statusOpt searchOpt) :=
    List.filter_congr (fun t _ => serverRowMatch_eq_spec statusOpt searchOpt hs t)
  constructor
  · unfold listTasks
    rw [hfe]
  · intro t
    unfold listTasks
    rw [hfe, mem_sortDesc, List.mem_filter]

/-- C6 witness: searching "milk" with status "completed" over two tasks
selects exactly the completed task whose title contains "Milk". -/
theorem c6_list_filter_witness :
    listTasks ⟨[⟨1, "Buy Milk", "", "completed", 1, 1⟩,
                ⟨2, "Walk", "", "pending", 2, 2⟩], 3⟩
        (some "completed") (some "milk") =
      sortDesc (List.filter (specRowMatch (some "completed") (some "milk"))
        [⟨1, "Buy Milk", "", "completed", 1, 1⟩,
         ⟨2, "Walk", "", "pending", 2, 2⟩]) ∧
    ∀ t, t ∈ listTasks ⟨[⟨1, "Buy Milk", "", "completed", 1, 1⟩,
                ⟨2, "Walk", "", "pending", 2, 2⟩], 3⟩
        (some "completed") (some "milk") ↔
      t ∈ [⟨1, "Buy Milk", "", "completed", 1, 1⟩,
           ⟨2, "Walk", "", "pending", 2, 2⟩] ∧
      specRowMatch (some "completed") (some "milk") t = true :=
  c6_list_filter ⟨[⟨1, "Buy Milk", "", "completed", 1, 1⟩,
      ⟨2, "Walk", "", "pending", 2, 2⟩], 3⟩ (some "completed") (some "milk")
    (fun s hs => by cases hs; decide)

/-- C7 (counterexample): the client's filtered view and the server's
filtering disagree.  With a single pending task titled "a": for search
"%" the client view is empty (no literal "%" occurs) while the server
returns the task (LIKE wildcard); for status filter "" the client view
is empty (no task has status "") while the server skips the falsy
status filter and returns the task.  And even with a non-empty status
filter and a wildcard-free search text, the two case mappings diverge
outside ASCII: for a task titled "Á" and search "á", JavaScript's
Unicode `toLowerCase` makes the client match while SQLite's ASCII-only
LIKE folding makes the server miss. -/
theorem c7_counterexample :
    clientFilter [⟨1, "a", "", "pending", 0, 0⟩] "all" "%" = [] ∧
    List.filter (serverRowMatch (some "all") (some "%"))
      [⟨1, "a", "", "pending", 0, 0⟩] = [⟨1, "a", "", "pending", 0, 0⟩] ∧
    clientFilter [⟨1, "a", "", "pending", 0, 0⟩] "" "" = [] ∧
    List.filter (serverRowMatch (some "") (some ""))
      [⟨1, "a", "", "pending", 0, 0⟩] = [⟨1, "a", "", "pending", 0, 0⟩] ∧
    clientFilter [⟨1, "Á", "", "pending", 0, 0⟩] "pending" "á" =
      [⟨1, "Á", "", "pending", 0, 0⟩] ∧
    List.filter (serverRowMatch (some "pending") (some "á"))
      [⟨1, "Á", "", "pending", 0, 0⟩] = [] ∧
    noWild "á".data = true ∧ ("pending" : String) ≠ "" := by
  refine ⟨by rfl, by rfl, by rfl, by rfl, by rfl, by rfl, by rfl, by decide⟩

/-- C7 (amended): for every task collection whose titles and
descriptions are ASCII, every non-empty status filter value, and every
ASCII search text free of the LIKE wildcards `%` and `_` — the domain on
which JavaScript's Unicode case folding and SQLite's ASCII-only case
folding agree — the client-side derived filtered view selects exactly
the same tasks as the server-side list filtering with the same
arguments. -/
theorem c7_filter_equiv (tasks : List Task) (sf st : String)
    (hnw : noWild st.data = true) (hsf : sf ≠ "")
    (hsta : asciiStr st = true)
    (hta : ∀ t ∈ tasks, asciiStr t.title = true ∧ asciiStr t.description = true) :
    clientFilter tasks sf st =
      tasks.filter (serverRowMatch (some sf) (some st)) := by
  have hsr : ∀ f : String, asciiStr f = true →
      likePat st f = listIncl (lowerStr st) (lowerStr f) := by
    intro f hf
    rw [likePat_eq_containsCI st hnw, ci_search_eq_client st f hsta hf]
  by_cases hall : sf = "all"
  · subst hall
    by_cases hse : st = ""
    · subst hse
      unfold clientFilter
      rw [if_pos rfl, if_pos rfl]
      exact (List.filter_eq_self.mpr (fun t _ => rfl)).symm
    · unfold clientFilter
      rw [if_pos rfl, if_neg hse]
      apply List.filter_congr
      intro t htm
      obtain ⟨h1, h2⟩ := hta t htm
      simp [serverRowMatch, hse, hsr t.title h1, hsr t.description h2]
  · unfold clientFilter
    rw [if_neg hall]
    by_cases hse : st = ""
    · subst hse
      rw [if_pos rfl]
      apply List.filter_congr
      intro t _
      simp [serverRowMatch, hsf, hall]
    · rw [if_neg hse, List.filter_filter]
      apply List.filter_congr
      intro t htm
      obtain ⟨h1, h2⟩ := hta t htm
      simp [serverRowMatch, hsf, hall, hse, hsr t.title h1, hsr t.description h2,
        Bool.and_comm]

/-- C7 witness: status "completed" with search "milk" selects the same
tasks on the client and on the server. -/
theorem c7_filter_equiv_witness :
    clientFilter [⟨1, "Buy Milk", "", "completed", 1, 1⟩,
        ⟨2, "Walk", "", "pending", 2, 2⟩] "completed" "milk" =
      List.filter (serverRowMatch (some "completed") (some "milk"))
        [⟨1, "Buy Milk", "", "completed", 1, 1⟩,
         ⟨2, "Walk", "", "pending", 2, 2⟩] :=
  c7_filter_equiv [⟨1, "Buy Milk", "", "completed", 1, 1⟩,
      ⟨2, "Walk", "", "pending", 2, 2⟩] "completed" "milk"
    (by decide) (by decide) (by decide) (by decide)

end TaskApp
